import Mathlib

/-!
Verification of the RBAC permission resolver and the socket connection
registry / notifier of the picode-server backend, shallowly embedded from
the TypeScript source (src/models/user.model.ts, src/middleware, src/socket.ts).
-/

namespace Picode

/-! ## Data model (src/models: Permission, Role, User)

A Mongoose document array of references holds either raw ObjectIds
(unpopulated) or populated documents.  Both are JavaScript objects and
non-null, so the source's `typeof x === 'object' && x !== null` probes are
true for both; reading a field such as `.name` off an unpopulated ObjectId
yields `undefined`, which we model as `none`. -/

/-- Permission document (permission model): `name` is the action
(enum create/read/update/.../manage), `resource` the resource; the `code`
virtual is the composite `resource:name`. -/
structure Permission where
  resource : String
  name : String
  deriving Repr, DecidableEq

/-- An entry of a role's `permissions` array: unpopulated ObjectId or
populated Permission document. -/
inductive PermRef where
  | ref (id : String)
  | pop (p : Permission)
  deriving Repr, DecidableEq

/-- Role document: a name and a `permissions` reference array. -/
structure Role where
  name : String
  permissions : List PermRef
  deriving Repr, DecidableEq

/-- An entry of a user's `roles` array: unpopulated ObjectId or populated
Role document. -/
inductive RoleRef where
  | ref (id : String)
  | pop (r : Role)
  deriving Repr, DecidableEq

/-- JS `typeof x === 'object' && x !== null` on a roles/permissions array
entry: a Mongoose ObjectId and a populated document are both non-null
objects, so this is true in either case. -/
def RoleRef.isObjectNonNull : RoleRef → Bool
  | .ref _ => true
  | .pop _ => true

/-- JS read of `.name` on a roles entry: `undefined` (none) for an
unpopulated ObjectId. -/
def RoleRef.jsName : RoleRef → Option String
  | .ref _ => none
  | .pop r => some r.name

/-- JS read of `.permissions` on a roles entry: `undefined` (none) for an
unpopulated ObjectId. -/
def RoleRef.jsPermissions : RoleRef → Option (List PermRef)
  | .ref _ => none
  | .pop r => some r.permissions

/-- JS `typeof permission === 'object' && permission !== null` (true for both
ObjectId and populated document). -/
def PermRef.isObjectNonNull : PermRef → Bool
  | .ref _ => true
  | .pop _ => true

/-- JS template literal built in `hasPermission`:
a raw ObjectId has `.resource` and `.name` undefined, and the template
literal stringifies `undefined` to the string "undefined". -/
def PermRef.jsComposite : PermRef → String
  | .ref _ => "undefined:undefined"
  | .pop p => p.resource ++ ":" ++ p.name

/-- User document with role references (user model).  `_id` is modelled as a
string (a Mongoose ObjectId is always truthy). -/
structure User where
  id : String
  roles : List RoleRef
  deriving Repr, DecidableEq

/-- `UserSchema.methods.hasRole` (user.model.ts lines 105-115): false on an
empty roles array; otherwise, when the first entry is a non-null object
(always the case), true iff some entry's `.name` strictly equals `roleName`. -/
def hasRole (u : User) (roleName : String) : Bool :=
  match u.roles with
  | [] => false
  | r0 :: _ =>
    if r0.isObjectNonNull then
      u.roles.any (fun r => r.jsName == some roleName)
    else
      false

/-- `UserSchema.methods.hasPermission` (user.model.ts lines 118-138): false on
an empty roles array; otherwise iterate the roles, skipping entries whose
`.permissions` is undefined, and return true iff some permission entry that is
a non-null object has JS composite equal to `permissionCode`. -/
def hasPermission (u : User) (permissionCode : String) : Bool :=
  match u.roles with
  | [] => false
  | r0 :: _ =>
    if r0.isObjectNonNull then
      u.roles.any (fun role =>
        match role.jsPermissions with
        | none => false
        | some perms =>
          perms.any (fun p => p.isObjectNonNull && (p.jsComposite == permissionCode)))
    else
      false

/-! ## Authorization middleware -/

/-- Outcome of an authorization middleware call: `next()` with no error
(allow), or `next(err)` with statusCode 401 (unauthenticated) or 403
(forbidden). -/
inductive Decision where
  | allow
  | denyUnauthenticated
  | denyForbidden
  deriving Repr, DecidableEq

/-- `authorize(...roles)` middleware body, as a function of `req.user`. -/
def authorize (roles : List String) (user : Option User) : Decision :=
  match user with
  | none => .denyUnauthenticated
  | some u =>
    if hasRole u "SuperAdmin" then .allow
    else if roles.any (fun role => hasRole u role) then .allow
    else .denyForbidden

/-- JS `permission.split(':')[0]`: the characters before the first colon
(the whole string when there is no colon). -/
def resourcePart (s : String) : String :=
  ⟨s.data.takeWhile (fun c => c != ':')⟩

/-- `requirePermission(...permissions)` middleware body
(permission.middlware.ts lines 5-41), as a function of `req.user`. -/
def requirePermission (permissions : List String) (user : Option User) : Decision :=
  match user with
  | none => .denyUnauthenticated
  | some u =>
    if hasRole u "SuperAdmin" then .allow
    else if permissions.any (fun p => hasPermission u p) then .allow
    else if permissions.any (fun p =>
        hasPermission u (resourcePart p ++ ":manage") || hasPermission u "all:manage") then
      .allow
    else .denyForbidden

/-! ## Connection registry (src/socket.ts)

`activeConnections` is a JS `Map<string, AuthenticatedSocket[]>`: an
insertion-ordered association list with unique keys. -/

/-- An `AuthenticatedSocket`: the socket id plus the optionally attached user. -/
structure Conn where
  id : String
  user : Option User
  deriving Repr, DecidableEq

/-- The `activeConnections` map, as an insertion-ordered association list. -/
abbrev Registry := List (String × List Conn)

/-- JS `Map.has`. -/
def mapHas (reg : Registry) (k : String) : Bool :=
  reg.any (fun e => e.1 == k)

/-- JS `Map.get` (undefined when absent). -/
def mapGet (reg : Registry) (k : String) : Option (List Conn) :=
  (reg.find? (fun e => e.1 == k)).map (fun e => e.2)

/-- JS `Map.set`: update in place (keeping insertion order) when the key is
present, append otherwise. -/
def mapSet (reg : Registry) (k : String) (v : List Conn) : Registry :=
  if mapHas reg k then
    reg.map (fun e => if e.1 == k then (k, v) else e)
  else
    reg ++ [(k, v)]

/-- JS `Map.delete`. -/
def mapDelete (reg : Registry) (k : String) : Registry :=
  reg.filter (fun e => e.1 != k)

/-- The `connection` handler's registration step (socket.ts lines 81-102):
a socket with no attached user is force-disconnected and not registered;
otherwise an empty array is created for the user id if absent, and the socket
is pushed onto the user's array. -/
def register (reg : Registry) (c : Conn) : Registry :=
  match c.user with
  | none => reg
  | some u =>
    let userId := u.id
    let reg1 := if mapHas reg userId then reg else mapSet reg userId []
    mapSet reg1 userId (((mapGet reg1 userId).getD []) ++ [c])

/-- The `disconnect` handler's registry mutation (socket.ts lines 118-128):
filter the socket out of the user's array; keep the filtered array when it is
non-empty, otherwise delete the user's key. -/
def unregister (reg : Registry) (userId : String) (socketId : String) : Registry :=
  let userSockets := (mapGet reg userId).getD []
  let updatedSockets := userSockets.filter (fun s => s.id != socketId)
  if updatedSockets.length > 0 then
    mapSet reg userId updatedSockets
  else
    mapDelete reg userId

/-- A registry-mutating event: a completed connection handler or a disconnect
handler (which closes over the registering user's id and the socket's id). -/
inductive RegEvent where
  | connect (c : Conn)
  | disconnect (userId : String) (socketId : String)
  deriving Repr

/-- Apply one registry event. -/
def applyEvent (reg : Registry) : RegEvent → Registry
  | .connect c => register reg c
  | .disconnect userId socketId => unregister reg userId socketId

/-- Run a finite sequence of registry events from the initial empty map. -/
def runEvents (evs : List RegEvent) : Registry :=
  evs.foldl applyEvent []

/-! ## Notifier (notifyRoles, socket.ts lines 147-180) -/

/-- One emission performed by `notifyRoles`: `s.emit(event, data)` on the
socket with this id (the payload is passed through unchanged and is not
modelled). -/
structure Emission where
  socketId : String
  event : String
  deriving Repr, DecidableEq

/-- The inline role check of `notifyRoles`: some requested role name strictly
equals the `.name` of some entry of the attached user's roles array (the
source's disjunction `userRole.name === role || (typeof userRole === "object"
&& userRole.name === role)` is kept as written). -/
def userRolesMatch (roles : List String) (u : User) : Bool :=
  roles.any (fun role =>
    u.roles.any (fun userRole =>
      userRole.jsName == some role
        || (userRole.isObjectNonNull && userRole.jsName == some role)))

/-- The body of the `notifyRoles` loop for one registry entry: inspect only
the first socket (`sockets[0]`); when it exists, carries a user, and the user
matches a requested role, emit to every socket of the entry. -/
def notifyUser (roles : List String) (event : String) (sockets : List Conn) : List Emission :=
  match sockets with
  | [] => []
  | s0 :: _ =>
    match s0.user with
    | none => []
    | some u =>
      if userRolesMatch roles u then
        sockets.map (fun s => { socketId := s.id, event := event })
      else
        []

/-- `notifyRoles(roles, event, data)`: iterate every registry entry in order
and emit per `notifyUser`; the returned list is the sequence of emissions. -/
def notifyRoles (reg : Registry) (roles : List String) (event : String) : List Emission :=
  (reg.map (fun e => notifyUser roles event e.2)).flatten

/-- `notifyUser` instrumented with a transport oracle `ok` telling which
sockets' sends succeed.  `emit` on a socket.io socket is fire-and-forget and
the loop never branches on its outcome, so the first component (the emissions
attempted) is computed exactly as in `notifyUser` while the second component
keeps only the successful sends. -/
def notifyUserT (roles : List String) (event : String) (sockets : List Conn)
    (ok : String → Bool) : List Emission × List Emission :=
  match sockets with
  | [] => ([], [])
  | s0 :: _ =>
    match s0.user with
    | none => ([], [])
    | some u =>
      if userRolesMatch roles u then
        (sockets.map (fun s => { socketId := s.id, event := event }),
         (sockets.filter (fun s => ok s.id)).map
           (fun s => { socketId := s.id, event := event }))
      else
        ([], [])

/-- `notifyRoles` instrumented with the transport oracle: pairs the attempted
emissions with the delivered ones. -/
def notifyRolesT (reg : Registry) (roles : List String) (event : String)
    (ok : String → Bool) : List Emission × List Emission :=
  reg.foldr
    (fun e acc =>
      ((notifyUserT roles event e.2 ok).1 ++ acc.1,
       (notifyUserT roles event e.2 ok).2 ++ acc.2))
    ([], [])

/-! ## Handshake authentication (socket.ts lines 28-74, utils verifyAccessToken)

The external `jwt.verify` is a parameter `jwtVerify : String → Except String
JwtPayload` (failure carries the underlying error message, e.g. "jwt expired"
or "invalid signature").  JS truthiness: a missing or empty-string value is
falsy. -/

/-- Decoded JWT payload; `userId` is the claim read by the middleware
(absent = undefined). -/
structure JwtPayload where
  userId : Option String
  deriving Repr, DecidableEq

/-- JS falsiness of a possibly-undefined string (`!x`): true for undefined
and for empty string. -/
def jsFalsyStr : Option String → Bool
  | none => true
  | some s => s == ""

/-- `verifyAccessToken` (token utils): returns `jwt.verify`'s payload, and on
failure rethrows an ApiError with message `error.message || 'Invalid access
token'`. -/
def verifyAccessToken (jwtResult : Except String JwtPayload) : Except String JwtPayload :=
  match jwtResult with
  | .ok p => .ok p
  | .error m => .error (if m == "" then "Invalid access token" else m)

/-- The socket authentication middleware (io.use, socket.ts lines 28-74):
reject when the handshake token is falsy; otherwise verify it — a thrown
verification error is caught and rejected with `Authentication error:
<message>`; a payload with a falsy `userId` is rejected with `Authentication
error: Invalid token`; an unknown user id with `Authentication error: User
not found`; otherwise the looked-up user is attached. -/
def socketAuth (token : Option String) (jwtVerify : String → Except String JwtPayload)
    (findUser : String → Option User) : Except String User :=
  if jsFalsyStr token then
    .error "Authentication error: Token not provided"
  else
    match token with
    | none => .error "Authentication error: Token not provided"
    | some t =>
      match verifyAccessToken (jwtVerify t) with
      | .error m => .error ("Authentication error: " ++ m)
      | .ok decoded =>
        if jsFalsyStr decoded.userId then
          .error "Authentication error: Invalid token"
        else
          match decoded.userId with
          | none => .error "Authentication error: Invalid token"
          | some uid =>
            match findUser uid with
            | none => .error "Authentication error: User not found"
            | some u => .ok u

/-- Full handshake outcome on the registry: a middleware rejection (next(err))
leaves the registry untouched and surfaces the error; on success the
connection handler registers the socket with the user attached. -/
def handleConnection (reg : Registry) (token : Option String)
    (jwtVerify : String → Except String JwtPayload) (findUser : String → Option User)
    (socketId : String) : Registry × Option String :=
  match socketAuth token jwtVerify findUser with
  | .error m => (reg, some m)
  | .ok u => (register reg { id := socketId, user := some u }, none)

/-! ## Heartbeat / disconnect interleaving (socket.ts lines 104-134)

Per-connection temporal model.  The `setInterval` callback fires whenever the
timer is armed; the disconnect handler is a program-ordered sequence: enter,
`clearInterval` (line 115), then the registry mutation (lines 119-128).  Pings
are counted, separately when they occur after the registry cleanup. -/

/-- Program counter of the disconnect handler. -/
inductive DiscPC where
  | notStarted
  | entered
  | timerCleared
  | done
  deriving Repr, DecidableEq

/-- Per-connection heartbeat state. -/
structure HbState where
  timerActive : Bool
  pc : DiscPC
  pings : Nat
  pingsAfterCleanup : Nat
  deriving Repr, DecidableEq

/-- Initial state right after registration: timer armed, disconnect handler
not yet dispatched, no pings sent. -/
def hbInit : HbState :=
  { timerActive := true, pc := .notStarted, pings := 0, pingsAfterCleanup := 0 }

/-- Scheduler events for one connection: a timer firing (enabled whenever the
interval is armed, at any point of any interleaving) and the three
program-ordered steps of the disconnect handler. -/
inductive HbEvent where
  | fire
  | enterDisconnect
  | clearTimer
  | removeFromRegistry
  deriving Repr, DecidableEq

/-- Transition relation (none = event not enabled). -/
def hbStep (s : HbState) : HbEvent → Option HbState
  | .fire =>
    if s.timerActive then
      some { s with
        pings := s.pings + 1,
        pingsAfterCleanup :=
          if s.pc = .done then s.pingsAfterCleanup + 1 else s.pingsAfterCleanup }
    else
      none
  | .enterDisconnect =>
    if s.pc = .notStarted then some { s with pc := .entered } else none
  | .clearTimer =>
    if s.pc = .entered then some { s with pc := .timerCleared, timerActive := false } else none
  | .removeFromRegistry =>
    if s.pc = .timerCleared then some { s with pc := .done } else none

/-- States reachable from `hbInit` by any interleaving of timer firings with
the disconnect handler's steps. -/
inductive HbReachable : HbState → Prop where
  | init : HbReachable hbInit
  | step {s s' : HbState} (ev : HbEvent) :
      HbReachable s → hbStep s ev = some s' → HbReachable s'

/-! ## Spec-side definitions and concrete fixtures -/

/-- The specification's wording of `hasPermission`: true iff any role's
resolved permission set contains a permission whose `resource:action`
composite equals the code (entries that are mere references contribute
nothing).  Stated independently of the source function, for comparison. -/
def specHasPermission (u : User) (code : String) : Bool :=
  u.roles.any (fun rr =>
    match rr with
    | .pop r =>
      r.permissions.any (fun pr =>
        match pr with
        | .pop p => p.resource ++ ":" ++ p.name == code
        | .ref _ => false)
    | .ref _ => false)

/-- The characters after the first colon of a permission code (spec-side
helper used to decompose a code into resource and action). -/
def restPart (s : String) : String :=
  ⟨(s.data.dropWhile (fun c => c != ':')).tail⟩

/-- Fixture: an HRManager principal holding only `careers:manage`. -/
def hrUser : User :=
  { id := "u1",
    roles := [.pop { name := "HRManager",
                     permissions := [.pop { resource := "careers", name := "manage" }] }] }

/-- Fixture: a SuperAdmin principal with no direct permissions. -/
def saUser : User :=
  { id := "u0", roles := [.pop { name := "SuperAdmin", permissions := [] }] }

/-- Fixture: a principal whose single populated role carries only an
unresolved permission reference. -/
def refPermUser : User :=
  { id := "u2", roles := [.pop { name := "X", permissions := [.ref "p1"] }] }

/-- Fixture: a connection whose attached user has the Admin role. -/
def adminConn : Conn :=
  { id := "s1",
    user := some { id := "u1", roles := [.pop { name := "Admin", permissions := [] }] } }

/-! ## Helper lemmas -/

theorem list_any_congr {α : Type} {p q : α → Bool} :
    ∀ l : List α, (∀ a ∈ l, p a = q a) → l.any p = l.any q
  | [], _ => rfl
  | a :: l, h => by
    simp only [List.any_cons]
    rw [h a (by simp), list_any_congr l (fun b hb => h b (by simp [hb]))]

theorem hasRole_iff (u : User) (n : String) :
    hasRole u n = true ↔ ∃ rr ∈ u.roles, rr.jsName = some n := by
  obtain ⟨uid, roles⟩ := u
  cases roles with
  | nil => simp [hasRole]
  | cons r0 rs =>
    cases r0 <;>
      simp [hasRole, RoleRef.isObjectNonNull, List.any_eq_true]

theorem authorize_allow_iff (roles : List String) (u : User) :
    authorize roles (some u) = Decision.allow ↔
      (hasRole u "SuperAdmin" = true ∨ roles.any (fun role => hasRole u role) = true) := by
  unfold authorize
  by_cases h1 : hasRole u "SuperAdmin" = true
  · simp [h1]
  · by_cases h2 : roles.any (fun role => hasRole u role) = true <;> simp [h1, h2]

theorem requirePermission_allow_iff (perms : List String) (u : User) :
    requirePermission perms (some u) = Decision.allow ↔
      (hasRole u "SuperAdmin" = true ∨
       perms.any (fun p => hasPermission u p) = true ∨
       perms.any (fun p =>
         hasPermission u (resourcePart p ++ ":manage")
           || hasPermission u "all:manage") = true) := by
  unfold requirePermission
  by_cases h1 : hasRole u "SuperAdmin" = true
  · simp [h1]
  · by_cases h2 : perms.any (fun p => hasPermission u p) = true
    · simp [h1, h2]
    · by_cases h3 : perms.any (fun p =>
          hasPermission u (resourcePart p ++ ":manage")
            || hasPermission u "all:manage") = true <;>
        simp [h1, h2, h3]

/-! ## Claim theorems -/

/-- Claim C2: `authorize(p, R)` denies with Unauthenticated when there is no
principal, and otherwise allows iff `p` has the SuperAdmin role or `p`'s
resolved roles intersect `R`; in every other case it denies with Forbidden. -/
theorem authorize_correct (roles : List String) (u : User) :
    authorize roles none = Decision.denyUnauthenticated ∧
    (authorize roles (some u) = Decision.allow ↔
      (hasRole u "SuperAdmin" = true ∨ ∃ r ∈ roles, hasRole u r = true)) ∧
    (authorize roles (some u) ≠ Decision.allow →
      authorize roles (some u) = Decision.denyForbidden) := by
  refine ⟨rfl, ?_, ?_⟩
  · rw [authorize_allow_iff]
    simp [List.any_eq_true]
  · intro h
    unfold authorize at h ⊢
    by_cases h1 : hasRole u "SuperAdmin" = true
    · simp [h1] at h
    · by_cases h2 : roles.any (fun role => hasRole u role) = true
      · simp [h1, h2] at h
      · simp [h1, h2]

/-- Claim C10: with an empty required list, an authenticated principal
without the SuperAdmin role is denied with Forbidden by both `authorize` and
`requirePermission`, while a SuperAdmin principal is still allowed. -/
theorem emptyList_denies (u : User) :
    (hasRole u "SuperAdmin" = false →
      authorize [] (some u) = Decision.denyForbidden ∧
      requirePermission [] (some u) = Decision.denyForbidden) ∧
    (hasRole u "SuperAdmin" = true →
      authorize [] (some u) = Decision.allow ∧
      requirePermission [] (some u) = Decision.allow) := by
  constructor
  · intro h
    constructor <;> simp [authorize, requirePermission, h]
  · intro h
    constructor <;> simp [authorize, requirePermission, h]

/-- Witness for C10 at concrete principals: an HRManager is denied with an
empty requirement list, a SuperAdmin is allowed. -/
theorem emptyList_denies_witness :
    (authorize [] (some hrUser) = Decision.denyForbidden ∧
     requirePermission [] (some hrUser) = Decision.denyForbidden) ∧
    (authorize [] (some saUser) = Decision.allow ∧
     requirePermission [] (some saUser) = Decision.allow) :=
  ⟨(emptyList_denies hrUser).1 (by decide), (emptyList_denies saUser).2 (by decide)⟩

theorem takeWhile_append_colon (l₁ l₂ : List Char)
    (h : ∀ c ∈ l₁, (c != ':') = true) :
    List.takeWhile (fun c => c != ':') (l₁ ++ ':' :: l₂) = l₁ := by
  induction l₁ with
  | nil => simp [List.takeWhile_cons]
  | cons c cs ih =>
    have hc := h c (by simp)
    simp only [List.cons_append, List.takeWhile_cons, hc, if_true]
    rw [ih (fun b hb => h b (by simp [hb]))]

theorem resourcePart_append (r a : String) (h : ':' ∉ r.data) :
    resourcePart (r ++ ":" ++ a) = r := by
  have hd : (r ++ ":" ++ a).data = r.data ++ ':' :: a.data := by
    simp [String.data_append]
  unfold resourcePart
  rw [hd, takeWhile_append_colon]
  · intro c hc
    simp only [bne_iff_ne, ne_eq]
    intro hcc
    subst hcc
    exact h hc

theorem dropWhile_colon (l : List Char) (h : ':' ∈ l) :
    l.dropWhile (fun c => c != ':') = ':' :: (l.dropWhile (fun c => c != ':')).tail := by
  induction l with
  | nil => cases h
  | cons c cs ih =>
    by_cases hc : c = ':'
    · subst hc
      simp [List.dropWhile_cons]
    · have hne : (c != ':') = true := by simp [hc]
      rw [List.dropWhile_cons]
      simp only [hne, if_true]
      apply ih
      rcases List.mem_cons.mp h with h1 | h1
      · exact absurd h1.symm hc
      · exact h1

theorem code_decomp (s : String) (h : ':' ∈ s.data) :
    s = resourcePart s ++ ":" ++ restPart s ∧ ':' ∉ (resourcePart s).data := by
  constructor
  · apply String.ext
    have hd : (resourcePart s ++ ":" ++ restPart s).data
        = s.data.takeWhile (fun c => c != ':')
            ++ ':' :: (s.data.dropWhile (fun c => c != ':')).tail := by
      simp [String.data_append, resourcePart, restPart]
    rw [hd]
    conv_lhs => rw [← List.takeWhile_append_dropWhile (p := fun c => c != ':') (l := s.data)]
    rw [dropWhile_colon s.data h]
    rfl
  · intro hc
    simp only [resourcePart] at hc
    have := List.mem_takeWhile_imp hc
    simp at this

/-- Claim C1: `requirePermission(p, P)` denies with Unauthenticated when there
is no principal; otherwise it allows iff `p` has the SuperAdmin role, or `p`
directly holds some permission in `P`, or for some `resource:action` code in
`P` the principal holds `resource:manage` or `all:manage`; in every other
case it denies with Forbidden.  Codes are assumed well-formed (they contain a
colon). -/
theorem requirePermission_correct (perms : List String) (u : User)
    (hwf : ∀ p ∈ perms, ':' ∈ p.data) :
    requirePermission perms none = Decision.denyUnauthenticated ∧
    (requirePermission perms (some u) = Decision.allow ↔
      (hasRole u "SuperAdmin" = true ∨
       (∃ p ∈ perms, hasPermission u p = true) ∨
       (∃ p ∈ perms, ∃ r a, p = r ++ ":" ++ a ∧ ':' ∉ r.data ∧
         (hasPermission u (r ++ ":manage") = true ∨
          hasPermission u "all:manage" = true)))) ∧
    (requirePermission perms (some u) ≠ Decision.allow →
      requirePermission perms (some u) = Decision.denyForbidden) := by
  refine ⟨rfl, ?_, ?_⟩
  · rw [requirePermission_allow_iff]
    constructor
    · rintro (h1 | h2 | h3)
      · exact Or.inl h1
      · refine Or.inr (Or.inl ?_)
        simpa [List.any_eq_true] using h2
      · refine Or.inr (Or.inr ?_)
        rw [List.any_eq_true] at h3
        obtain ⟨p, hp, hesc⟩ := h3
        obtain ⟨hdec, hnc⟩ := code_decomp p (hwf p hp)
        refine ⟨p, hp, resourcePart p, restPart p, hdec, hnc, ?_⟩
        rcases (Bool.or_eq_true _ _).mp hesc with hA | hB
        · exact Or.inl hA
        · exact Or.inr hB
    · rintro (h1 | ⟨p, hp, hperm⟩ | ⟨p, hp, r, a, hdec, hnc, hesc⟩)
      · exact Or.inl h1
      · refine Or.inr (Or.inl ?_)
        rw [List.any_eq_true]
        exact ⟨p, hp, hperm⟩
      · refine Or.inr (Or.inr ?_)
        rw [List.any_eq_true]
        refine ⟨p, hp, ?_⟩
        have hres : resourcePart p = r := by
          rw [hdec]
          exact resourcePart_append r a hnc
        rw [hres]
        rcases hesc with hA | hB
        · simp [hA]
        · simp [hB]
  · intro h
    unfold requirePermission at h ⊢
    by_cases h1 : hasRole u "SuperAdmin" = true
    · simp [h1] at h
    · by_cases h2 : perms.any (fun p => hasPermission u p) = true
      · simp [h1, h2] at h
      · by_cases h3 : perms.any (fun p =>
            hasPermission u (resourcePart p ++ ":manage")
              || hasPermission u "all:manage") = true
        · simp [h1, h2, h3] at h
        · simp [h1, h2, h3]

/-- Witness for C1: the HRManager scenario — `careers:manage` grants
`careers:create` through manage-escalation. -/
theorem requirePermission_correct_witness :
    requirePermission ["careers:create"] (some hrUser) = Decision.allow :=
  (requirePermission_correct ["careers:create"] hrUser (by decide)).2.1.mpr
    (Or.inr (Or.inr ⟨"careers:create", by decide, "careers", "create", by decide, by decide,
      Or.inl (by decide)⟩))

/-- Counterexample to C8 as stated: a principal whose populated role holds
only an unresolved permission reference satisfies `hasPermission` for the
code "undefined:undefined" (the JS template literal stringifies the
ObjectId's undefined fields), even though no resolved permission matches —
so the iff and the fail-closed clause fail at that code. -/
theorem hasPermission_unresolvedRef_counterexample :
    hasPermission refPermUser "undefined:undefined" = true ∧
    specHasPermission refPermUser "undefined:undefined" = false := by
  constructor <;> rfl

/-- Claim C8 (amended): for every code other than "undefined:undefined",
`hasPermission` agrees with the spec's description — true iff some resolved
role has a resolved permission whose `resource:action` composite equals the
code, and false (fail-closed, without throwing) when roles or permissions are
present only as unresolved references. -/
theorem hasPermission_matches_spec (u : User) (code : String)
    (hcode : code ≠ "undefined:undefined") :
    hasPermission u code = specHasPermission u code := by
  obtain ⟨uid, roles⟩ := u
  cases roles with
  | nil => rfl
  | cons r0 rs =>
    have hguard : r0.isObjectNonNull = true := by cases r0 <;> rfl
    simp only [hasPermission, specHasPermission, hguard, if_true]
    apply list_any_congr
    intro rr _
    cases rr with
    | ref i => rfl
    | pop r =>
      simp only [RoleRef.jsPermissions]
      apply list_any_congr
      intro pr _
      cases pr with
      | ref i =>
        simp only [PermRef.isObjectNonNull, PermRef.jsComposite, Bool.true_and]
        exact beq_eq_false_iff_ne.mpr (Ne.symm hcode)
      | pop p =>
        simp [PermRef.isObjectNonNull, PermRef.jsComposite]

/-- Witness for C8 (amended) at a concrete code and principal. -/
theorem hasPermission_matches_spec_witness :
    hasPermission hrUser "careers:manage" = specHasPermission hrUser "careers:manage" :=
  hasPermission_matches_spec hrUser "careers:manage" (by decide)

theorem mapHas_eq_false_no_key (reg : Registry) (k : String)
    (h : mapHas reg k = false) : ∀ e ∈ reg, e.1 ≠ k := by
  intro e he
  unfold mapHas at h
  rw [List.any_eq_false] at h
  have := h e he
  simpa using this

theorem mapSet_mem_cases (reg : Registry) (k : String) (v : List Conn)
    (e : String × List Conn) (he : e ∈ mapSet reg k v) :
    (e.1 = k ∧ e.2 = v) ∨ (e.1 ≠ k ∧ e ∈ reg) := by
  unfold mapSet at he
  by_cases hhas : mapHas reg k = true
  · rw [if_pos hhas] at he
    rw [List.mem_map] at he
    obtain ⟨e0, he0, heq⟩ := he
    by_cases hk : e0.1 == k
    · rw [if_pos hk] at heq
      subst heq
      exact Or.inl ⟨rfl, rfl⟩
    · rw [if_neg hk] at heq
      subst heq
      refine Or.inr ⟨?_, he0⟩
      simpa using hk
  · rw [if_neg hhas] at he
    rcases List.mem_append.mp he with h1 | h1
    · refine Or.inr ⟨?_, h1⟩
      exact mapHas_eq_false_no_key reg k (by simpa using hhas) e h1
    · rcases List.mem_singleton.mp h1 with rfl
      exact Or.inl ⟨rfl, rfl⟩

theorem register_preserves_nonempty (reg : Registry) (c : Conn)
    (h : ∀ e ∈ reg, e.2 ≠ []) : ∀ e ∈ register reg c, e.2 ≠ [] := by
  intro e he
  unfold register at he
  cases hu : c.user with
  | none => rw [hu] at he; exact h e he
  | some u =>
    rw [hu] at he
    simp only at he
    rcases mapSet_mem_cases _ _ _ e he with ⟨_, h2⟩ | ⟨_, h2⟩
    · rw [h2]
      simp
    · by_cases hhas : mapHas reg u.id = true
      · rw [if_pos hhas] at h2
        exact h e h2
      · rw [if_neg hhas] at h2
        rcases mapSet_mem_cases _ _ _ e h2 with ⟨hk, _⟩ | ⟨_, h3⟩
        · exact absurd hk (by assumption)
        · exact h e h3

theorem unregister_preserves_nonempty (reg : Registry) (userId socketId : String)
    (h : ∀ e ∈ reg, e.2 ≠ []) : ∀ e ∈ unregister reg userId socketId, e.2 ≠ [] := by
  intro e he
  unfold unregister at he
  by_cases hlen : (((mapGet reg userId).getD []).filter (fun s => s.id != socketId)).length > 0
  · rw [if_pos hlen] at he
    rcases mapSet_mem_cases _ _ _ e he with ⟨_, h2⟩ | ⟨_, h2⟩
    · rw [h2]
      intro hnil
      rw [hnil] at hlen
      simp at hlen
    · exact h e h2
  · rw [if_neg hlen] at he
    exact h e (List.mem_of_mem_filter he)

theorem runEvents_from_nonempty (evs : List RegEvent) (reg : Registry)
    (h : ∀ e ∈ reg, e.2 ≠ []) : ∀ e ∈ evs.foldl applyEvent reg, e.2 ≠ [] := by
  induction evs generalizing reg with
  | nil => exact h
  | cons ev rest ih =>
    apply ih
    cases ev with
    | connect c => exact register_preserves_nonempty reg c h
    | disconnect userId socketId => exact unregister_preserves_nonempty reg userId socketId h

theorem runEvents_nonempty (evs : List RegEvent) :
    ∀ e ∈ runEvents evs, e.2 ≠ [] :=
  runEvents_from_nonempty evs [] (by simp)

theorem mapHas_iff_get_nonempty (reg : Registry) (h : ∀ e ∈ reg, e.2 ≠ []) (k : String) :
    mapHas reg k = true ↔ (mapGet reg k).getD [] ≠ [] := by
  induction reg with
  | nil => simp [mapHas, mapGet]
  | cons e rest ih =>
    cases hk : (e.1 == k) with
    | true =>
      have hfind : List.find? (fun x => x.1 == k) (e :: rest) = some e := by
        simp [List.find?_cons, hk]
      unfold mapHas mapGet
      rw [List.any_cons, hk, hfind]
      simp [h e (List.mem_cons_self e rest)]
    | false =>
      have hfind : List.find? (fun x => x.1 == k) (e :: rest)
          = List.find? (fun x => x.1 == k) rest := by
        simp [List.find?_cons, hk]
      unfold mapHas mapGet
      rw [List.any_cons, hk, hfind, Bool.false_or]
      exact ih (fun x hx => h x (by simp [hx]))

/-- Claim C4: after every finite sequence of register (connection-handler) and
unregister (disconnect-handler) operations starting from the empty registry, a
user ID is a key of the mapping iff that user's set of live connections is
non-empty (empty sets are pruned within the unregister that empties them). -/
theorem registry_key_iff_live (evs : List RegEvent) (userId : String) :
    mapHas (runEvents evs) userId = true ↔ (mapGet (runEvents evs) userId).getD [] ≠ [] :=
  mapHas_iff_get_nonempty (runEvents evs) (runEvents_nonempty evs) userId

/-- Witness for C2: an HRManager requesting an Admin-only route is denied
with Forbidden. -/
theorem authorize_correct_witness :
    authorize ["Admin"] (some hrUser) = Decision.denyForbidden :=
  (authorize_correct ["Admin"] hrUser).2.2 (by decide)

theorem userRolesMatch_iff (roles : List String) (u : User) :
    userRolesMatch roles u = true ↔
      ∃ role ∈ roles, ∃ rr ∈ u.roles, rr.jsName = some role := by
  unfold userRolesMatch
  have hsimp : ∀ role : String,
      u.roles.any (fun userRole =>
        userRole.jsName == some role
          || (userRole.isObjectNonNull && userRole.jsName == some role))
        = u.roles.any (fun userRole => userRole.jsName == some role) := by
    intro role
    apply list_any_congr
    intro rr _
    cases rr <;> simp [RoleRef.jsName, RoleRef.isObjectNonNull]
  simp only [hsimp]
  simp [List.any_eq_true]

theorem notifyUser_mem_iff (roles : List String) (event : String)
    (sockets : List Conn) (sid : String) :
    ({ socketId := sid, event := event } : Emission) ∈ notifyUser roles event sockets ↔
      ((∃ s ∈ sockets, s.id = sid) ∧
       ∃ s0, sockets.head? = some s0 ∧
         ∃ u, s0.user = some u ∧ userRolesMatch roles u = true) := by
  cases sockets with
  | nil => simp [notifyUser]
  | cons s0 rest =>
    obtain ⟨sid0, su⟩ := s0
    cases su with
    | none => simp [notifyUser]
    | some u =>
      by_cases hm : userRolesMatch roles u = true
      · simp [notifyUser, hm, List.mem_map]
        constructor
        · rintro (h | h)
          · exact Or.inl h.symm
          · exact Or.inr h
        · rintro (h | h)
          · exact Or.inl h.symm
          · exact Or.inr h
      · simp [notifyUser, hm]

/-- Claim C3: `notifyRoles(roleNames, event, payload)` emits the event to a
connection iff the connection belongs to a registry entry (a user with at
least one live connection) whose first (representative) connection carries a
principal with some role named in `roleNames`; on a match every connection of
that entry is emitted to, not just the representative one. -/
theorem notifyRoles_delivery_iff (reg : Registry) (roles : List String)
    (event : String) (sid : String) :
    ({ socketId := sid, event := event } : Emission) ∈ notifyRoles reg roles event ↔
      ∃ entry ∈ reg,
        (∃ s ∈ entry.2, s.id = sid) ∧
        ∃ s0, entry.2.head? = some s0 ∧
          ∃ u, s0.user = some u ∧
            ∃ role ∈ roles, ∃ rr ∈ u.roles, rr.jsName = some role := by
  unfold notifyRoles
  rw [List.mem_flatten]
  constructor
  · rintro ⟨l, hl, hmem⟩
    rw [List.mem_map] at hl
    obtain ⟨entry, hentry, rfl⟩ := hl
    obtain ⟨hs, s0, hs0, u, hu, hm⟩ := (notifyUser_mem_iff roles event entry.2 sid).mp hmem
    exact ⟨entry, hentry, hs, s0, hs0, u, hu, (userRolesMatch_iff roles u).mp hm⟩
  · rintro ⟨entry, hentry, hs, s0, hs0, u, hu, hmatch⟩
    refine ⟨notifyUser roles event entry.2, List.mem_map.mpr ⟨entry, hentry, rfl⟩, ?_⟩
    exact (notifyUser_mem_iff roles event entry.2 sid).mpr
      ⟨hs, s0, hs0, u, hu, (userRolesMatch_iff roles u).mpr hmatch⟩

/-- Counterexample to C5 as stated: registering the same connection twice
under the same user makes a matching `notifyRoles` emit the event twice to
that connection — delivery is not at-most-once. -/
theorem register_twice_duplicates :
    (notifyRoles (register (register [] adminConn) adminConn)
        ["Admin"] "notification:blog").count
      { socketId := "s1", event := "notification:blog" } = 2 := by
  rfl

theorem count_emission_map_le (sockets : List Conn) (event : String) (em : Emission) :
    (sockets.map (fun s => ({ socketId := s.id, event := event } : Emission))).count em
      ≤ (sockets.map (fun c => c.id)).count em.socketId := by
  induction sockets with
  | nil => simp
  | cons s rest ih =>
    have hcons1 : ((s :: rest).map (fun x => ({ socketId := x.id, event := event } : Emission))).count em
        = (rest.map (fun x => ({ socketId := x.id, event := event } : Emission))).count em
          + (if ({ socketId := s.id, event := event } : Emission) = em then 1 else 0) := by
      simp [List.count_cons]
    have hcons2 : ((s :: rest).map (fun c => c.id)).count em.socketId
        = (rest.map (fun c => c.id)).count em.socketId
          + (if s.id = em.socketId then 1 else 0) := by
      simp [List.count_cons]
    rw [hcons1, hcons2]
    by_cases he : ({ socketId := s.id, event := event } : Emission) = em
    · rw [if_pos he, if_pos (congrArg Emission.socketId he)]
      omega
    · rw [if_neg he]
      by_cases hid : s.id = em.socketId
      · rw [if_pos hid]
        omega
      · rw [if_neg hid]
        omega

theorem count_notifyRoles_le (reg : Registry) (roles : List String)
    (event : String) (em : Emission) :
    (notifyRoles reg roles event).count em
      ≤ ((reg.map (fun e => e.2)).flatten.map (fun c => c.id)).count em.socketId := by
  induction reg with
  | nil => simp [notifyRoles]
  | cons entry rest ih =>
    have hstep : notifyRoles (entry :: rest) roles event
        = notifyUser roles event entry.2 ++ notifyRoles rest roles event := by
      simp [notifyRoles]
    rw [hstep]
    simp only [List.map_cons, List.flatten_cons, List.map_append, List.count_append]
    have huser : ∀ sockets : List Conn, (notifyUser roles event sockets).count em
        ≤ (sockets.map (fun c => c.id)).count em.socketId := by
      intro sockets
      cases sockets with
      | nil => simp [notifyUser]
      | cons s0 srest =>
        cases hu : s0.user with
        | none => simp [notifyUser, hu]
        | some u =>
          by_cases hm : userRolesMatch roles u = true
          · have hred : notifyUser roles event (s0 :: srest)
                = (s0 :: srest).map (fun s => { socketId := s.id, event := event }) := by
              simp [notifyUser, hu, hm]
            rw [hred]
            exact count_emission_map_le (s0 :: srest) event em
          · simp [notifyUser, hu, hm]
    have := huser entry.2
    omega

/-- Claim C5 (amended): `notifyRoles` delivers at most once per connection per
notification provided each connection occurs at most once in the registry
(socket ids pairwise distinct across all entries) — which holds when each
connection is registered exactly once; registering the same connection twice
duplicates its entry and the event is then emitted once per occurrence. -/
theorem notifyRoles_at_most_once (reg : Registry) (roles : List String) (event : String)
    (hids : ((reg.map (fun e => e.2)).flatten.map (fun c => c.id)).Nodup) :
    ∀ em : Emission, (notifyRoles reg roles event).count em ≤ 1 := by
  intro em
  calc (notifyRoles reg roles event).count em
      ≤ ((reg.map (fun e => e.2)).flatten.map (fun c => c.id)).count em.socketId :=
        count_notifyRoles_le reg roles event em
    _ ≤ 1 := List.nodup_iff_count_le_one.mp hids em.socketId

/-- Witness for C5 (amended): with a single registration of the connection,
delivery is at most once. -/
theorem notifyRoles_at_most_once_witness :
    (notifyRoles (register [] adminConn) ["Admin"] "notification:blog").count
      { socketId := "s1", event := "notification:blog" } ≤ 1 :=
  notifyRoles_at_most_once (register [] adminConn) ["Admin"] "notification:blog"
    (by decide) { socketId := "s1", event := "notification:blog" }

theorem notifyUserT_fst (roles : List String) (event : String)
    (sockets : List Conn) (ok : String → Bool) :
    (notifyUserT roles event sockets ok).1 = notifyUser roles event sockets := by
  cases sockets with
  | nil => rfl
  | cons s0 rest =>
    cases hu : s0.user with
    | none => simp [notifyUserT, notifyUser, hu]
    | some u =>
      by_cases hm : userRolesMatch roles u = true
      · simp [notifyUserT, notifyUser, hu, hm]
      · simp [notifyUserT, notifyUser, hu, hm]

/-- Claim C7: `notifyRoles` is a total function of the registry (never
throws), and per-connection send failures are invisible to it: for every
transport oracle the sequence of attempted emissions is exactly
`notifyRoles`'s emission list, so one failing send never prevents the
delivery attempts to the remaining connections of the same user or to the
remaining users. -/
theorem notifyRoles_failure_isolated (reg : Registry) (roles : List String)
    (event : String) (ok₁ ok₂ : String → Bool) :
    (notifyRolesT reg roles event ok₁).1 = notifyRoles reg roles event ∧
    (notifyRolesT reg roles event ok₂).1 = (notifyRolesT reg roles event ok₁).1 := by
  have key : ∀ ok : String → Bool,
      (notifyRolesT reg roles event ok).1 = notifyRoles reg roles event := by
    intro ok
    induction reg with
    | nil => rfl
    | cons entry rest ih =>
      have hstep : notifyRolesT (entry :: rest) roles event ok
          = ((notifyUserT roles event entry.2 ok).1 ++ (notifyRolesT rest roles event ok).1,
             (notifyUserT roles event entry.2 ok).2 ++ (notifyRolesT rest roles event ok).2) := by
        rfl
      rw [hstep]
      have hstep2 : notifyRoles (entry :: rest) roles event
          = notifyUser roles event entry.2 ++ notifyRoles rest roles event := by
        simp [notifyRoles]
      rw [hstep2]
      rw [notifyUserT_fst, ih]
  exact ⟨key ok₁, (key ok₂).trans (key ok₁).symm⟩

/-- Counterexample to C6 as stated: a handshake whose token fails
cryptographic verification (here: expiry — jwt.verify throws "jwt expired")
is rejected through the middleware's catch-all with reason
`Authentication error: jwt expired`, not `Authentication error: Invalid
token`; the registry is left empty. -/
theorem invalidToken_reason_counterexample :
    (handleConnection [] (some "tok") (fun _ => Except.error "jwt expired")
        (fun _ => none) "s9")
      = ([], some "Authentication error: jwt expired") ∧
    some "Authentication error: jwt expired"
      ≠ some "Authentication error: Invalid token" := by
  constructor
  · rfl
  · decide

/-- Claim C6 (amended): a handshake whose token is present but fails
cryptographic verification with message `m` is rejected with the catch-all
reason `Authentication error: <m>` (with `Invalid access token` substituted
for an empty message), and the connection registry is left unchanged — no
entry is created for the connection. -/
theorem failed_verification_rejected (reg : Registry) (t : String)
    (jwtVerify : String → Except String JwtPayload) (findUser : String → Option User)
    (sid m : String) (ht : t ≠ "") (hv : jwtVerify t = Except.error m) :
    handleConnection reg (some t) jwtVerify findUser sid
      = (reg, some ("Authentication error: "
          ++ (if m == "" then "Invalid access token" else m))) := by
  have htb : (t == "") = false := by
    simp [ht]
  unfold handleConnection socketAuth verifyAccessToken jsFalsyStr
  simp [htb, hv]

/-- Witness for C6 (amended): the expired-token handshake is rejected with
the underlying message and the registry stays empty. -/
theorem failed_verification_rejected_witness :
    handleConnection [] (some "tok") (fun _ => Except.error "jwt expired")
        (fun _ => none) "s9"
      = ([], some "Authentication error: jwt expired") := by
  have h := failed_verification_rejected [] "tok"
    (fun _ => Except.error "jwt expired") (fun _ => none) "s9" "jwt expired"
    (by decide) rfl
  simpa using h

theorem hbReachable_invariant (s : HbState) (h : HbReachable s) :
    s.pingsAfterCleanup = 0 ∧
      ((s.pc = DiscPC.timerCleared ∨ s.pc = DiscPC.done) → s.timerActive = false) := by
  induction h with
  | init =>
    constructor
    · rfl
    · rintro (hpc | hpc) <;> exact absurd hpc (by decide)
  | step ev hr heq ih =>
    rename_i s0 s1
    cases ev with
    | fire =>
      unfold hbStep at heq
      by_cases hact : s0.timerActive = true
      · rw [if_pos hact] at heq
        rcases Option.some_inj.mp heq with rfl
        by_cases hdone : s0.pc = DiscPC.done
        · exact absurd (ih.2 (Or.inr hdone)) (by simp [hact])
        · refine ⟨?_, ?_⟩
          · simp [hdone, ih.1]
          · intro hpc
            exact absurd (ih.2 hpc) (by simp [hact])
      · rw [if_neg hact] at heq
        cases heq
    | enterDisconnect =>
      unfold hbStep at heq
      by_cases hpc : s0.pc = DiscPC.notStarted
      · rw [if_pos hpc] at heq
        rcases Option.some_inj.mp heq with rfl
        refine ⟨ih.1, ?_⟩
        rintro (h1 | h1) <;> simp at h1
      · rw [if_neg hpc] at heq
        cases heq
    | clearTimer =>
      unfold hbStep at heq
      by_cases hpc : s0.pc = DiscPC.entered
      · rw [if_pos hpc] at heq
        rcases Option.some_inj.mp heq with rfl
        exact ⟨ih.1, fun _ => rfl⟩
      · rw [if_neg hpc] at heq
        cases heq
    | removeFromRegistry =>
      unfold hbStep at heq
      by_cases hpc : s0.pc = DiscPC.timerCleared
      · rw [if_pos hpc] at heq
        rcases Option.some_inj.mp heq with rfl
        refine ⟨ih.1, fun _ => ?_⟩
        exact ih.2 (Or.inl hpc)
      · rw [if_neg hpc] at heq
        cases heq

/-- Claim C9: in every interleaving of heartbeat-timer firings with the
disconnect handler — which cancels the interval (clearTimer) before mutating
the registry (removeFromRegistry) — no ping is ever emitted after the cleanup
has run: every reachable per-connection state counts zero
pings-after-cleanup. -/
theorem no_ping_after_cleanup (s : HbState) (h : HbReachable s) :
    s.pingsAfterCleanup = 0 :=
  (hbReachable_invariant s h).1

/-- Witness for C9 at a concrete reachable state: after one timer firing from
the initial state, the pings-after-cleanup count is zero. -/
theorem no_ping_after_cleanup_witness :
    ({ timerActive := true, pc := DiscPC.notStarted, pings := 1,
       pingsAfterCleanup := 0 } : HbState).pingsAfterCleanup = 0 :=
  no_ping_after_cleanup
    { timerActive := true, pc := DiscPC.notStarted, pings := 1, pingsAfterCleanup := 0 }
    (HbReachable.step HbEvent.fire HbReachable.init (by decide))

end Picode
